import Mathlib

set_option maxRecDepth 100000

/-!
Verification development for the doc-qa-system repository.

Shallow embedding conventions:
* JS strings are `List Char`; character codes are `Char.toNat`.
* JS numbers that stay integral are `Nat`; general JS numbers are `Rat`
  (exact arithmetic idealization of IEEE doubles).  Where a NaN/Infinity
  outcome matters we use the `JSVal` type with explicit IEEE division rules.
* `Math.sin`, `Math.cos`, `Math.sqrt` are uninterpreted parameters
  `(jsSin jsCos jsSqrt : Rat → Rat)`; theorems assume only the algebraic
  facts they need about them (e.g. `jsSqrt 0 = 0`).
* JS `x || default` on optional numeric inputs (both `undefined` and the
  falsy `0` select the default) is `jsOrDefault : Option Nat → Nat → Nat`.
* The while-loop of the chunker is embedded with explicit fuel; `none`
  means the loop did not finish within the given fuel (for every fuel).
-/

/-- JS falsy-or for optional numeric inputs: `input.x || d` where both
`undefined` and `0` fall back to `d` (src/unnamed/part_005 lines 28, 38). -/
def jsOrDefault (o : Option Nat) (d : Nat) : Nat :=
  match o with
  | none => d
  | some n => if n = 0 then d else n

/-- ASCII whitespace recognized by the JS `\s` regex class and `String.trim`
(we model the ASCII subset; the counterexamples and claims only use `' '`). -/
def isJsWs (c : Char) : Bool :=
  c = ' ' || c = '\t' || c = '\n' || c = '\r' || c = '\x0b' || c = '\x0c'

/-- JS `String.prototype.trim`: strip leading and trailing whitespace. -/
def jsTrim (l : List Char) : List Char :=
  ((l.dropWhile isJsWs).reverse.dropWhile isJsWs).reverse

/-- JS `text.substring(s, e)` for `s ≤ e ≤ text.length` (the only uses in
the chunker satisfy this). -/
def substringJs (text : List Char) (s e : Nat) : List Char :=
  (text.drop s).take (e - s)

/-- Error kinds raised by the chunking path
(src/unnamed/part_005 lines 29-45, 117-124). -/
inductive McpErrorCode where
  | INVALID_CHUNK_SIZE
  | INVALID_CHUNK_OVERLAP
  | EMPTY_DOCUMENT
  deriving DecidableEq

/-- A chunk as built by `splitTextIntoChunks` (content, index, startOffset,
endOffset, and the metadata fields chunkIndex / totalChunks; totalChunks is
`-1` until the backfill pass). -/
structure ChunkRec where
  content : List Char
  index : Nat
  startOffset : Nat
  endOffset : Nat
  mChunkIndex : Nat
  mTotalChunks : Int
  deriving DecidableEq

/-- `isSentenceBoundary(text, index)` (src/unnamed/part_005 lines 241-253):
position holds `.`, `!` or `?` and is last or followed by whitespace. -/
def isSentenceBoundary (text : List Char) (i : Nat) : Bool :=
  if i < text.length then
    let c := text.getD i ' '
    (c = '.' || c = '!' || c = '?') &&
      (i = text.length - 1 || isJsWs (text.getD (i + 1) ' '))
  else
    false

/-- `findSentenceBoundary(text, index)` (src/unnamed/part_005 lines 211-233):
search backward from `index` down to `max 0 (index-100)`, then forward from
`index` up to `min text.length (index+100)`, returning position after the
first boundary found, else `index`. -/
def findSentenceBoundary (text : List Char) (index : Nat) : Nat :=
  let startSearch := index - 100
  let endSearch := min text.length (index + 100)
  match ((List.range (index + 1 - startSearch)).map (fun k => index - k)).find?
      (fun i => isSentenceBoundary text i) with
  | some i => i + 1
  | none =>
    match ((List.range (endSearch - index)).map (fun k => index + k)).find?
        (fun i => isSentenceBoundary text i) with
    | some i => i + 1
    | none => index

/-- End index chosen for the chunk starting at `s`
(src/unnamed/part_005 lines 148-160): `s + size` clamped to the text length,
else moved to a nearby sentence boundary when that boundary lies after `s`. -/
def endIndexFor (text : List Char) (size s : Nat) : Nat :=
  let e0 := s + size
  if text.length < e0 then text.length
  else
    let b := findSentenceBoundary text e0
    if s < b then b else e0

/-- Whether the chunk starting at `s` is emitted: its trimmed content is
non-empty (src/unnamed/part_005 line 166). -/
def chunkEmitted (text : List Char) (size s : Nat) : Bool :=
  (jsTrim (substringJs text s (endIndexFor text size s))).length != 0

/-- Accumulator update of one loop iteration (push the chunk when its
trimmed content is non-empty, src/unnamed/part_005 lines 166-182). -/
def emitStep (text : List Char) (size s ci : Nat) (acc : List ChunkRec) :
    List ChunkRec :=
  if chunkEmitted text size s then
    acc ++ [⟨substringJs text s (endIndexFor text size s), ci, s,
            endIndexFor text size s, ci, -1⟩]
  else acc

/-- chunkIndex update of one loop iteration. -/
def emitCi (text : List Char) (size s ci : Nat) : Nat :=
  if chunkEmitted text size s then ci + 1 else ci

/-- The chunking while-loop (src/unnamed/part_005 lines 147-191), with fuel.
State: current `startIndex` `s`, current `chunkIndex` `ci`, accumulated
chunks `acc`.  The next start is `endIndex - chunkOverlap`; the loop breaks
when (in JS integers) that is `≤ 0` (here: `endIndex ≤ overlap`) or
`≥ text.length`.  `none` means fuel ran out before the loop finished. -/
def chunkLoop (text : List Char) (size overlap : Nat) :
    Nat → Nat → Nat → List ChunkRec → Option (List ChunkRec)
  | 0, _, _, _ => none
  | fuel + 1, s, ci, acc =>
    if s < text.length then
      if endIndexFor text size s ≤ overlap ∨
          text.length ≤ endIndexFor text size s - overlap then
        some (emitStep text size s ci acc)
      else
        chunkLoop text size overlap fuel (endIndexFor text size s - overlap)
          (emitCi text size s ci) (emitStep text size s ci acc)
    else some acc

/-- Backfill pass (src/unnamed/part_005 lines 193-200): set every chunk's
totalChunks to the final count. -/
def backfillTotal (cs : List ChunkRec) : List ChunkRec :=
  cs.map (fun c => { c with mTotalChunks := (cs.length : Int) })

/-- `splitTextIntoChunks(text, chunkSize, chunkOverlap, _)`
(src/unnamed/part_005 lines 111-203).  `Except` carries the thrown error;
the inner `Option` is `none` when the loop exhausts its fuel. -/
def splitTextIntoChunks (fuel : Nat) (text : List Char) (size overlap : Nat) :
    Except McpErrorCode (Option (List ChunkRec)) :=
  if (jsTrim text).length = 0 then .error .EMPTY_DOCUMENT
  else if text.length ≤ size then
    .ok (some [⟨text, 0, 0, text.length, 0, 1⟩])
  else
    match chunkLoop text size overlap fuel 0 0 [] with
    | none => .ok none
    | some cs => .ok (some (backfillTotal cs))

/-- Validation prefix of `documentChunkAndEmbed`
(src/unnamed/part_005 lines 24-60): chunk-size bound check, then the
overlap-vs-size check, then chunking (whose `EMPTY_DOCUMENT` error
propagates unchanged through the `instanceof MCPError` rethrow). -/
def documentChunkAndEmbedValidate (fuel : Nat) (content : List Char)
    (chunkSizeIn chunkOverlapIn : Option Nat) :
    Except McpErrorCode (Option (List ChunkRec)) :=
  let size := jsOrDefault chunkSizeIn 1000
  if size < 100 ∨ 8000 < size then .error .INVALID_CHUNK_SIZE
  else
    let overlap := jsOrDefault chunkOverlapIn 200
    if size ≤ overlap then .error .INVALID_CHUNK_OVERLAP
    else splitTextIntoChunks fuel content size overlap

/-- The text of the non-termination counterexample to C1: 150 characters,
all `'a'` except a sentence boundary `". "` at positions 120-121. -/
def badC1Text : List Char :=
  List.replicate 120 'a' ++ ['.', ' '] ++ List.replicate 28 'a'

/-- From `startIndex = 22` the loop never finishes, for any fuel: the chunk
end is moved back to the sentence boundary at 121 and the next start is
`121 - 99 = 22` again, and the progress guard (which only breaks on
`startIndex ≤ 0` or `≥ text.length`) does not fire. -/
lemma chunkLoop_stuck_at_22 :
    ∀ (fuel ci : Nat) (acc : List ChunkRec),
      chunkLoop badC1Text 100 99 fuel 22 ci acc = none := by
  intro fuel
  induction fuel with
  | zero => intro ci acc; rfl
  | succ n ih =>
    intro ci acc
    rw [chunkLoop]
    have h1 : (22 : Nat) < badC1Text.length := by decide
    have hE : endIndexFor badC1Text 100 22 = 121 := by decide
    rw [if_pos h1, hE]
    have h2 : ¬((121 : Nat) ≤ 99 ∨ badC1Text.length ≤ 121 - 99) := by decide
    rw [if_neg h2]
    exact ih _ _

/-- C1: REFUTED (code bug).  The claim says that for inputs satisfying the
preconditions (trimmed text non-empty, 100 ≤ chunkSize ≤ 8000,
chunkOverlap < chunkSize, text.length > chunkSize) the loop's `startIndex`
strictly increases every iteration and the loop terminates.  On the input
`badC1Text` (150 chars with a sentence boundary ". " at 120-121) with
chunkSize 100, chunkOverlap 99 — which satisfies every precondition — the
loop reaches `startIndex = 22` and the next start computed from 22 is again
22, so `startIndex` does not increase and the loop never terminates:
`splitTextIntoChunks` runs out of fuel for every fuel bound. -/
theorem chunkLoop_nonterminating_on_badC1Text :
    ((jsTrim badC1Text).length ≠ 0 ∧ 100 ≤ 100 ∧ 100 ≤ 8000 ∧ 99 < 100 ∧
      100 < badC1Text.length) ∧
    endIndexFor badC1Text 100 22 - 99 = 22 ∧
    ∀ fuel : Nat,
      splitTextIntoChunks fuel badC1Text 100 99 = .ok none := by
  refine ⟨by decide, by decide, ?_⟩
  intro fuel
  have hloop : chunkLoop badC1Text 100 99 fuel 0 0 [] = none := by
    cases fuel with
    | zero => rfl
    | succ n =>
      rw [chunkLoop]
      have h1 : (0 : Nat) < badC1Text.length := by decide
      have hE : endIndexFor badC1Text 100 0 = 121 := by decide
      rw [if_pos h1, hE]
      have h2 : ¬((121 : Nat) ≤ 99 ∨ badC1Text.length ≤ 121 - 99) := by decide
      rw [if_neg h2]
      exact chunkLoop_stuck_at_22 n _ _
  unfold splitTextIntoChunks
  have ht : ¬((jsTrim badC1Text).length = 0) := by decide
  have hl : ¬(badC1Text.length ≤ 100) := by decide
  rw [if_neg ht, if_neg hl, hloop]

/-- C7: CONFIRMED.  For text non-empty after trimming with
`text.length ≤ chunkSize` (and valid chunkSize/chunkOverlap), chunking
yields exactly one chunk spanning the whole text: index 0, startOffset 0,
endOffset `text.length`, totalChunks 1 — for any fuel, since the
single-chunk branch does not enter the loop. -/
theorem splitTextIntoChunks_single_chunk (fuel : Nat) (text : List Char)
    (size overlap : Nat)
    (htrim : jsTrim text ≠ [])
    (hsize1 : 100 ≤ size) (hsize2 : size ≤ 8000) (hov : overlap < size)
    (hlen : text.length ≤ size) :
    splitTextIntoChunks fuel text size overlap =
      .ok (some [⟨text, 0, 0, text.length, 0, 1⟩]) := by
  unfold splitTextIntoChunks
  have ht : ¬((jsTrim text).length = 0) := by
    simpa [List.length_eq_zero] using htrim
  rw [if_neg ht, if_pos hlen]

/-- Witness for C7 at a concrete input: text "hi", chunkSize 100,
chunkOverlap 20, fuel 0. -/
theorem splitTextIntoChunks_single_chunk_witness :
    splitTextIntoChunks 0 ['h', 'i'] 100 20 =
      .ok (some [⟨['h', 'i'], 0, 0, 2, 0, 1⟩]) :=
  splitTextIntoChunks_single_chunk 0 ['h', 'i'] 100 20 (by decide)
    (by decide) (by decide) (by decide) (by decide)

/-- C8: counterexample to the claim as stated.  (1) A request with
chunkOverlap ≥ chunkSize but out-of-range chunkSize (50) fails with
`INVALID_CHUNK_SIZE`, not `INVALID_CHUNK_OVERLAP`.  (2) A request with
empty text but chunkOverlap ≥ chunkSize (1000 ≥ 1000) fails with
`INVALID_CHUNK_OVERLAP`, not `EMPTY_DOCUMENT`: the size and overlap
validations run before the empty-text check. -/
theorem documentChunkAndEmbedValidate_order_counterexample :
    (60 ≥ 50 ∧
      documentChunkAndEmbedValidate 10 ['h', 'i'] (some 50) (some 60) =
        .error .INVALID_CHUNK_SIZE ∧
      McpErrorCode.INVALID_CHUNK_SIZE ≠ .INVALID_CHUNK_OVERLAP) ∧
    (jsTrim [] = [] ∧ (1000 : Nat) ≥ 1000 ∧
      documentChunkAndEmbedValidate 10 [] none (some 1000) =
        .error .INVALID_CHUNK_OVERLAP ∧
      McpErrorCode.INVALID_CHUNK_OVERLAP ≠ .EMPTY_DOCUMENT) :=
  ⟨⟨by decide, rfl, by decide⟩, ⟨rfl, by decide, rfl, by decide⟩⟩

/-- C8 amended: when the effective chunkSize is within [100, 8000], a
request with effective chunkOverlap ≥ chunkSize fails with
`INVALID_CHUNK_OVERLAP`; and when the size and overlap validations pass
(chunkSize in range, chunkOverlap < chunkSize), a request whose text is
empty or whitespace-only fails with `EMPTY_DOCUMENT`. -/
theorem documentChunkAndEmbedValidate_errors (fuel : Nat)
    (content : List Char) (sIn oIn : Option Nat) :
    (100 ≤ jsOrDefault sIn 1000 → jsOrDefault sIn 1000 ≤ 8000 →
      jsOrDefault sIn 1000 ≤ jsOrDefault oIn 200 →
      documentChunkAndEmbedValidate fuel content sIn oIn =
        .error .INVALID_CHUNK_OVERLAP) ∧
    (100 ≤ jsOrDefault sIn 1000 → jsOrDefault sIn 1000 ≤ 8000 →
      jsOrDefault oIn 200 < jsOrDefault sIn 1000 →
      jsTrim content = [] →
      documentChunkAndEmbedValidate fuel content sIn oIn =
        .error .EMPTY_DOCUMENT) := by
  constructor
  · intro h1 h2 h3
    unfold documentChunkAndEmbedValidate
    rw [if_neg (by omega), if_pos h3]
  · intro h1 h2 h3 htrim
    unfold documentChunkAndEmbedValidate
    rw [if_neg (by omega), if_neg (by omega)]
    unfold splitTextIntoChunks
    rw [if_pos (by simp [htrim])]

/-- Witness for C8 amended: chunkSize 100 with overlap 100 yields
`INVALID_CHUNK_OVERLAP`; default size (1000), overlap 200, whitespace-only
text yields `EMPTY_DOCUMENT`. -/
theorem documentChunkAndEmbedValidate_errors_witness :
    documentChunkAndEmbedValidate 5 ['x'] (some 100) (some 100) =
      .error .INVALID_CHUNK_OVERLAP ∧
    documentChunkAndEmbedValidate 5 [' ', ' '] none none =
      .error .EMPTY_DOCUMENT :=
  ⟨(documentChunkAndEmbedValidate_errors 5 ['x'] (some 100) (some 100)).1
      (by decide) (by decide) (by decide),
   (documentChunkAndEmbedValidate_errors 5 [' ', ' '] none none).2
      (by decide) (by decide) (by decide) (by decide)⟩

/-- Payload metadata stored with each vector point
(src/src/services/vector.ts lines 105-111). -/
structure QdrantPayloadMetadata where
  file_size : Nat
  created_at : String
  updated_at : String
  google_drive_id : String
  mime_type : String
  deriving DecidableEq

/-- Payload of a stored vector point (src/src/services/vector.ts). -/
structure QdrantPayload where
  document_id : String
  document_name : String
  chunk_index : Nat
  content : String
  metadata : QdrantPayloadMetadata
  deriving DecidableEq

/-- A hit returned by `searchSimilar` (src/src/services/vector.ts
lines 199-216): id, cosine score, payload. -/
structure QdrantHit where
  id : String
  score : Rat
  payload : QdrantPayload
  deriving DecidableEq

/-- One result of `vectorSimilaritySearch`
(src/src/mcp/tools/vector-search.ts lines 44-58). -/
structure SearchResultItem where
  id : String
  score : Rat
  content : String
  documentId : String
  documentName : String
  chunkIndex : Nat
  mimeType : String
  fileSize : Nat
  createdAt : String
  updatedAt : String
  googleDriveId : String
  deriving DecidableEq

/-- The relevance threshold passed by `documentQAQuery` to
`vectorSimilaritySearch` (src/src/mcp/tools/document-qa.ts line 34). -/
def documentQAThreshold : Rat := 7 / 10

/-- Result mapping of `vectorSimilaritySearch`
(src/src/mcp/tools/vector-search.ts lines 44-58), parametrized by the raw
`searchSimilar` hits.  The `threshold` input is computed at line 22 but the
mapping applies NO threshold filtering (comment at line 43: "no threshold
filtering for debugging"). -/
def vectorSimilaritySearchResults (raw : List QdrantHit) :
    List SearchResultItem :=
  raw.map (fun h =>
    ⟨h.id, h.score, h.payload.content, h.payload.document_id,
     h.payload.document_name, h.payload.chunk_index,
     h.payload.metadata.mime_type, h.payload.metadata.file_size,
     h.payload.metadata.created_at, h.payload.metadata.updated_at,
     h.payload.metadata.google_drive_id⟩)

/-- A source entry of the Answer returned by `documentQAQuery`
(src/src/mcp/tools/document-qa.ts lines 56-61). -/
structure QASource where
  documentId : String
  documentName : String
  content : String
  score : Rat
  deriving DecidableEq

/-- The sources of the Answer built by `documentQAQuery`
(src/src/mcp/tools/document-qa.ts lines 56-61): every search result is
mapped to a source, with no score filtering. -/
def documentQAQuerySources (raw : List QdrantHit) : List QASource :=
  (vectorSimilaritySearchResults raw).map (fun r =>
    ⟨r.documentId, r.documentName, r.content, r.score⟩)

/-- The projection the C2 claim says is applied: keep only hits whose score
clears the threshold, then map them to sources.  (Stated from the claim's
words, for comparison with `documentQAQuerySources`.) -/
def claimedFilteredSources (raw : List QdrantHit) : List QASource :=
  (raw.filter (fun h => documentQAThreshold ≤ h.score)).map (fun h =>
    ⟨h.payload.document_id, h.payload.document_name, h.payload.content,
     h.score⟩)

/-- A concrete low-score hit used in the C2 counterexample. -/
def lowHitC2 : QdrantHit :=
  ⟨"1", 1 / 10, ⟨"d1", "Doc 1", 0, "some chunk text",
    ⟨12, "t0", "t0", "g", "text/plain"⟩⟩⟩

/-- C2: counterexample to the claim as stated.  A search returning one hit
with score 0.1 < 0.7 yields that hit as a source: the sources are NOT the
hits filtered by `score ≥ 0.7` (which would be empty), because
`vectorSimilaritySearch` applies no threshold filtering. -/
theorem documentQAQuerySources_not_filtered_counterexample :
    documentQAQuerySources [lowHitC2] ≠ claimedFilteredSources [lowHitC2] ∧
    ¬(documentQAThreshold ≤ lowHitC2.score) ∧
    documentQAQuerySources [lowHitC2] ≠ [] := by
  have hscore : ¬(documentQAThreshold ≤ lowHitC2.score) := by
    norm_num [documentQAThreshold, lowHitC2]
  have h1 : documentQAQuerySources [lowHitC2] =
      [⟨"d1", "Doc 1", "some chunk text", 1 / 10⟩] := rfl
  have h2 : claimedFilteredSources [lowHitC2] = [] := by
    simp only [claimedFilteredSources, List.filter_cons, List.filter_nil,
      decide_eq_false hscore]
    simp
  refine ⟨?_, hscore, ?_⟩
  · rw [h1, h2]; simp
  · rw [h1]; simp

/-- C2 amended: `documentQAQuery` returns as its sources exactly ALL the
hits returned by the vector search, in order, with no threshold filtering
(the threshold 0.7 passed at the call site is unused); in particular an
empty search result yields an Answer with an empty source list rather than
an error. -/
theorem documentQAQuerySources_all_hits (raw : List QdrantHit) :
    documentQAQuerySources raw =
      raw.map (fun h => ⟨h.payload.document_id, h.payload.document_name,
        h.payload.content, h.score⟩) ∧
    (raw = [] → documentQAQuerySources raw = []) := by
  constructor
  · simp [documentQAQuerySources, vectorSimilaritySearchResults,
      List.map_map]
  · intro h; subst h; rfl

/-- Witness for C2 amended at a concrete input: the empty hit list yields
an empty source list. -/
theorem documentQAQuerySources_all_hits_witness :
    documentQAQuerySources [] =
      List.map (fun h => (⟨h.payload.document_id, h.payload.document_name,
        h.payload.content, h.score⟩ : QASource)) ([] : List QdrantHit) ∧
    documentQAQuerySources [] = [] :=
  ⟨(documentQAQuerySources_all_hits []).1,
   (documentQAQuerySources_all_hits []).2 rfl⟩

/-- The confidence label computed by the chat route
(src/src/api/routes/chat.ts line 50):
`sources && sources.length > 0 ? 'high' : 'low'`. -/
def chatConfidence (sources : List QASource) : String :=
  if 0 < sources.length then "high" else "low"

/-- Confidence of an answer for a query whose vector search returned the
raw hits `raw`: the chat route applies `chatConfidence` to the sources that
`documentQAQuery` built from those hits. -/
def chatQueryConfidence (raw : List QdrantHit) : String :=
  chatConfidence (documentQAQuerySources raw)

/-- A concrete low-score hit used in the C6 counterexample. -/
def lowHitC6 : QdrantHit :=
  ⟨"2", 1 / 5, ⟨"d2", "Doc 2", 1, "other chunk text",
    ⟨34, "t1", "t1", "g2", "text/plain"⟩⟩⟩

/-- C6: counterexample to the claim as stated.  A query whose single hit
scores 0.2 < 0.7 (no source clears the threshold) still gets confidence
"high", because confidence is derived from non-emptiness of the unfiltered
source list, not from any score threshold. -/
theorem chatQueryConfidence_counterexample :
    chatQueryConfidence [lowHitC6] = "high" ∧
    ¬(documentQAThreshold ≤ lowHitC6.score) := by
  refine ⟨rfl, ?_⟩
  norm_num [documentQAThreshold, lowHitC6]

/-- C6 amended: the Answer's confidence label is "high" exactly when the
vector search returned at least one hit (equivalently, the unfiltered
source list is non-empty), regardless of whether any hit cleared the
relevance threshold; a query with no hits yields "low". -/
theorem chatQueryConfidence_iff_hits (raw : List QdrantHit) :
    (chatQueryConfidence raw = "high" ↔ raw ≠ []) ∧
    (raw = [] → chatQueryConfidence raw = "low") := by
  constructor
  · cases raw with
    | nil =>
      simp [chatQueryConfidence, chatConfidence, documentQAQuerySources,
        vectorSimilaritySearchResults]
    | cons h t =>
      simp [chatQueryConfidence, chatConfidence, documentQAQuerySources,
        vectorSimilaritySearchResults]
  · intro h; subst h; rfl

/-- A concrete hit used only in the C6 witness. -/
def hitC6W : QdrantHit :=
  ⟨"3", 9 / 10, ⟨"d3", "Doc 3", 0, "third chunk",
    ⟨7, "t2", "t2", "g3", "text/plain"⟩⟩⟩

/-- Witness for C6 amended at concrete inputs: one hit gives "high", no
hits give "low". -/
theorem chatQueryConfidence_iff_hits_witness :
    chatQueryConfidence [hitC6W] = "high" ∧
    chatQueryConfidence [] = "low" :=
  ⟨(chatQueryConfidence_iff_hits [hitC6W]).1.2 (by simp),
   (chatQueryConfidence_iff_hits []).2 rfl⟩

/-- A point stored in the vector index. -/
structure StoredPoint where
  id : Nat
  payload : QdrantPayload
  deriving DecidableEq

/-- Modelled from the vector database's documented contract (the spec
treats the vector database as an external collaborator): a filter-delete on
`document_id` removes every point whose payload's `document_id` matches and
reports the removed count and status "completed".  Returns
(remaining store, removed count, status). -/
def qdrantDeleteByDocumentId (store : List StoredPoint)
    (documentId : String) : List StoredPoint × Nat × String :=
  (store.filter (fun p => p.payload.document_id ≠ documentId),
   (store.filter (fun p => p.payload.document_id = documentId)).length,
   "completed")

/-- `deleteVectors(documentId)` (src/src/services/vector.ts lines 233-257):
issues the filter delete, then returns `1` when the response status is
"completed" and `0` otherwise — NOT the number of points removed.
Returns (remaining store, the number the function returns). -/
def deleteVectors (store : List StoredPoint) (documentId : String) :
    List StoredPoint × Nat :=
  let r := qdrantDeleteByDocumentId store documentId
  (r.1, if r.2.2 = "completed" then 1 else 0)

/-- A store with two points belonging to document "d": the failing input
for C9. -/
def storeC9 : List StoredPoint :=
  [⟨1, ⟨"d", "Doc d", 0, "c0", ⟨1, "t", "t", "g", "text/plain"⟩⟩⟩,
   ⟨2, ⟨"d", "Doc d", 1, "c1", ⟨1, "t", "t", "g", "text/plain"⟩⟩⟩]

/-- C9: REFUTED (code bug).  On a store holding 2 points of document "d",
`deleteVectors` does remove every matching point (the remaining store is
empty), but it returns `1` — the boolean success of the
`status === 'completed'` check — not the number of points removed, which
is 2.  The function's own doc comment says "Number of vectors deleted". -/
theorem deleteVectors_returns_flag_not_count :
    (deleteVectors storeC9 "d").1 = [] ∧
    (qdrantDeleteByDocumentId storeC9 "d").2.1 = 2 ∧
    (deleteVectors storeC9 "d").2 = 1 ∧
    (1 : Nat) ≠ 2 := by
  refine ⟨by decide, by decide, ?_, by decide⟩
  show (if ("completed" : String) = "completed" then 1 else 0) = 1
  rw [if_pos rfl]

/-- IEEE-double values as produced by the JS arithmetic the claims care
about: a finite value (exact-rational idealization), NaN, or an infinity. -/
inductive JSVal where
  | fin : Rat → JSVal
  | nan : JSVal
  | inf : JSVal
  | ninf : JSVal
  deriving DecidableEq

/-- IEEE division of finite doubles (with nonnegative-zero divisor, the
only zero arising here): `0/0 = NaN`, `x/0 = ±Infinity` for `x ≠ 0`,
ordinary quotient otherwise. -/
def jsDiv (a b : Rat) : JSVal :=
  if b = 0 then
    if a = 0 then .nan else if 0 < a then .inf else .ninf
  else .fin (a / b)

/-- Sum of squares `vector.reduce((sum, val) => sum + val * val, 0)`
(src/src/services/vector.ts line 87). -/
def sumSqQ (v : List Rat) : Rat :=
  v.foldl (fun s x => s + x * x) 0

/-- The normalization step of `upsertVectors`
(src/src/services/vector.ts lines 85-89), for one vector:
`magnitude = Math.sqrt(sum of squares)`; `vector.map(val => val / magnitude)`
with NO guard for a zero magnitude.  `jsSqrt` abstracts `Math.sqrt`. -/
def upsertNormalizeVec (jsSqrt : Rat → Rat) (v : List Rat) : List JSVal :=
  let magnitude := jsSqrt (sumSqQ v)
  v.map (fun val => jsDiv val magnitude)

/-- The batch normalization `vectors.map(vector => ...)` of
`upsertVectors` (src/src/services/vector.ts lines 86-89). -/
def upsertNormalize (jsSqrt : Rat → Rat) (vectors : List (List Rat)) :
    List (List JSVal) :=
  vectors.map (upsertNormalizeVec jsSqrt)

/-- Sum of squares of the all-zero vector is zero. -/
lemma sumSqQ_replicate_zero (n : Nat) : sumSqQ (List.replicate n 0) = 0 := by
  induction n with
  | zero => rfl
  | succ m ih =>
    simpa [sumSqQ, List.replicate_succ, List.foldl_cons] using ih

/-- C10: CONFIRMED.  `upsertVectors` normalizes with no zero-magnitude
guard: for an all-zero input vector of positive length, the sum of squares
is 0, `Math.sqrt(0) = 0`, and every component becomes `0 / 0 = NaN` — the
stored vector is all-NaN rather than the zero vector, so the normalization
step is not total on its input domain. -/
theorem upsertNormalize_zero_vector_nan (n : Nat) (jsSqrt : Rat → Rat)
    (hn : 1 ≤ n) (hsqrt : jsSqrt 0 = 0) :
    upsertNormalize jsSqrt [List.replicate n 0] =
      [List.replicate n JSVal.nan] ∧
    List.replicate n JSVal.nan ≠ List.replicate n (JSVal.fin 0) := by
  constructor
  · have hmag : jsSqrt (sumSqQ (List.replicate n 0)) = 0 := by
      rw [sumSqQ_replicate_zero, hsqrt]
    have hdiv : jsDiv 0 (jsSqrt (sumSqQ (List.replicate n 0))) = .nan := by
      rw [hmag]; rfl
    simp [upsertNormalize, upsertNormalizeVec, List.map_replicate, hdiv]
  · intro h
    have h0 := congrArg (fun l => l.getD 0 JSVal.inf) h
    cases n with
    | zero => omega
    | succ m => simp [List.replicate_succ] at h0

/-- Witness for C10 at a concrete input: the length-3 zero vector with the
identity standing in for `Math.sqrt` (which is exact at 0). -/
theorem upsertNormalize_zero_vector_nan_witness :
    upsertNormalize (fun q => q) [List.replicate 3 0] =
      [List.replicate 3 JSVal.nan] ∧
    List.replicate 3 JSVal.nan ≠ List.replicate 3 (JSVal.fin 0) :=
  upsertNormalize_zero_vector_nan 3 (fun q => q) (by decide) rfl

/-- Character-code sum used as hash/seed by both embedding mocks
(src/src/services/ai.ts line 87, src/unnamed/part_005 lines 310-313). -/
def seedOf (text : List Char) : Nat :=
  text.foldl (fun a c => a + c.toNat) 0

/-- `safeText` of `mockGenerateEmbedding`
(src/unnamed/part_005 lines 305-307): empty input falls back to
"default-text". -/
def part005SafeText (text : List Char) : List Char :=
  if 0 < text.length then text else "default-text".toList

/-- Pre-normalization mock vector of `mockGenerateEmbedding`
(src/unnamed/part_005 lines 316-323): 384 components
`Math.sin(seed * (i + 1)) / 2`, with `Math.sin` abstracted as `jsSin`. -/
def part005RawMock (jsSin : Rat → Rat) (text : List Char) : List Rat :=
  (List.range 384).map
    (fun i => jsSin ((seedOf (part005SafeText text) * (i + 1) : Nat)) / 2)

/-- `mockGenerateEmbedding` (src/unnamed/part_005 lines 300-343):
compute the raw vector, take its magnitude `Math.sqrt(sum of squares)`;
if the magnitude is 0 return the 384-dimensional zero vector, else divide
every component by the magnitude. -/
def part005MockGenerateEmbedding (jsSin jsSqrt : Rat → Rat)
    (text : List Char) : List Rat :=
  if jsSqrt (sumSqQ (part005RawMock jsSin text)) = 0 then
    List.replicate 384 0
  else
    (part005RawMock jsSin text).map
      (fun x => x / jsSqrt (sumSqQ (part005RawMock jsSin text)))

/-- Hash-based fallback of `generateEmbedding` in the AI service
(src/src/services/ai.ts lines 87-92 and 107-112): 1536 components
`Math.sin(hash * (i+1) * 0.1) * Math.cos(hash * (i+1) * 0.05)` —
with NO normalization. -/
def aiHashMock (jsSin jsCos : Rat → Rat) (text : List Char) : List Rat :=
  (List.range 1536).map
    (fun i => jsSin (((seedOf text * (i + 1) : Nat)) * (1 / 10)) *
      jsCos (((seedOf text * (i + 1) : Nat)) * (1 / 20)))

/-- `generateEmbedding(text)` (src/src/services/ai.ts lines 78-114),
parametrized by the external provider's response: when a provider is
configured and succeeds its embedding is returned UNCHANGED (line 101);
otherwise the un-normalized hash fallback is returned. -/
def generateEmbedding (providerResult : Option (List Rat))
    (jsSin jsCos : Rat → Rat) (text : List Char) : List Rat :=
  match providerResult with
  | some e => e
  | none => aiHashMock jsSin jsCos text

/-- The property the C3 claim asserts of a returned vector `v`, in squared
form: either the pre-normalization norm was exactly zero (for
`generateEmbedding` the vector is returned unchanged, so that is
`sumSqQ v = 0`), or the L2 norm is within 1e-6 of 1, i.e.
`(1 - 1e-6)² ≤ ‖v‖² ≤ (1 + 1e-6)²`. -/
def claimC3UnitNorm (v : List Rat) : Prop :=
  sumSqQ v = 0 ∨
    ((1 - 1 / 1000000) ^ 2 ≤ sumSqQ v ∧ sumSqQ v ≤ (1 + 1 / 1000000) ^ 2)

/-- C3: counterexample to the claim as stated.  `generateEmbedding` never
normalizes: a provider embedding `[2]` is returned unchanged, its squared
norm is 4, which is neither 0 nor within the 1e-6 band around 1. -/
theorem generateEmbedding_not_unit_norm_counterexample :
    generateEmbedding (some [2]) (fun _ => 0) (fun _ => 0) ['a'] = [2] ∧
    ¬claimC3UnitNorm [2] := by
  refine ⟨rfl, ?_⟩
  have h4 : sumSqQ [2] = 4 := by norm_num [sumSqQ]
  intro h
  rcases h with h0 | ⟨_, hub⟩
  · rw [h4] at h0; norm_num at h0
  · rw [h4] at hub; norm_num at hub

/-- Folding the square-sum from an arbitrary accumulator. -/
lemma sumSqQ_foldl_acc (v : List Rat) (a : Rat) :
    v.foldl (fun s x => s + x * x) a = a + sumSqQ v := by
  induction v generalizing a with
  | nil => simp [sumSqQ]
  | cons x xs ih =>
    rw [List.foldl_cons]
    rw [ih (a + x * x)]
    have : sumSqQ (x :: xs) = (0 + x * x) + sumSqQ xs := by
      rw [sumSqQ, List.foldl_cons, ih (0 + x * x)]
    rw [this]; ring

/-- Square sum of a cons cell. -/
lemma sumSqQ_cons (x : Rat) (xs : List Rat) :
    sumSqQ (x :: xs) = x * x + sumSqQ xs := by
  rw [sumSqQ, List.foldl_cons, sumSqQ_foldl_acc]; ring

/-- Dividing every component by `m ≠ 0` divides the square sum by `m²`. -/
lemma sumSqQ_map_div (v : List Rat) (m : Rat) (hm : m ≠ 0) :
    sumSqQ (v.map (fun x => x / m)) = sumSqQ v / m ^ 2 := by
  induction v with
  | nil => simp [sumSqQ]
  | cons x xs ih =>
    rw [List.map_cons, sumSqQ_cons, sumSqQ_cons, ih]
    field_simp
    ring

/-- C3 amended: the two embedding paths behave differently.
`generateEmbedding` in the AI service returns the provider's vector
unchanged (no normalization), so its outputs need not have unit norm
(see the counterexample); `mockGenerateEmbedding` in the chunk-and-embed
tool does normalize: assuming `Math.sqrt` is exact on the computed square
sum `S` (`(jsSqrt S)² = S`), a zero pre-normalization vector is returned
as the 384-dimensional zero vector and otherwise the returned vector has
squared L2 norm exactly 1. -/
theorem generateEmbedding_normalization_amended :
    (∀ (e : List Rat) (jsSin jsCos : Rat → Rat) (text : List Char),
      generateEmbedding (some e) jsSin jsCos text = e) ∧
    (∀ (jsSin jsSqrt : Rat → Rat) (text : List Char),
      (jsSqrt (sumSqQ (part005RawMock jsSin text))) ^ 2 =
          sumSqQ (part005RawMock jsSin text) →
      (sumSqQ (part005RawMock jsSin text) = 0 →
        part005MockGenerateEmbedding jsSin jsSqrt text =
          List.replicate 384 0) ∧
      (sumSqQ (part005RawMock jsSin text) ≠ 0 →
        sumSqQ (part005MockGenerateEmbedding jsSin jsSqrt text) = 1)) := by
  refine ⟨fun e jsSin jsCos text => rfl, fun jsSin jsSqrt text hsq => ⟨?_, ?_⟩⟩
  · intro hS0
    have hm : jsSqrt (sumSqQ (part005RawMock jsSin text)) = 0 := by
      have h2 : (jsSqrt (sumSqQ (part005RawMock jsSin text))) ^ 2 = 0 := by
        rw [hsq, hS0]
      exact pow_eq_zero_iff (two_ne_zero) |>.mp h2
    rw [part005MockGenerateEmbedding, if_pos hm]
  · intro hSne
    have hm : jsSqrt (sumSqQ (part005RawMock jsSin text)) ≠ 0 := by
      intro h0
      exact hSne (by rw [← hsq, h0]; ring)
    rw [part005MockGenerateEmbedding, if_neg hm,
      sumSqQ_map_div _ _ hm, hsq]
    exact div_self hSne

/-- A concrete stand-in for `Math.sin` in the C3 witness: value 2 at 97
(the seed of the text "a"), 0 elsewhere. -/
def c3SinW : Rat → Rat := fun q => if q = 97 then 2 else 0

/-- With `c3SinW` and text "a" the raw part_005 mock vector is
`[1, 0, 0, ..., 0]` (384 components). -/
lemma part005RawMock_c3SinW :
    part005RawMock c3SinW ['a'] = 1 :: List.replicate 383 0 := by
  have hseed : seedOf (part005SafeText ['a']) = 97 := by decide
  simp only [part005RawMock, hseed]
  rw [show (384 : Nat) = 383 + 1 from rfl, List.range_succ_eq_map,
    List.map_cons, List.map_map]
  have hhead : c3SinW ((97 * (0 + 1) : Nat) : Rat) / 2 = 1 := by
    norm_num [c3SinW]
  rw [hhead]
  refine congrArg (1 :: ·) (List.eq_replicate_iff.2 ⟨by simp, ?_⟩)
  intro b hb
  simp only [List.mem_map, Function.comp_apply, List.mem_range,
    Nat.succ_eq_add_one] at hb
  obtain ⟨i, _, rfl⟩ := hb
  have h1 : (97 * (i + 1 + 1) : Nat) ≠ 97 := by omega
  have hne : ((97 * (i + 1 + 1) : Nat) : Rat) ≠ 97 := by exact_mod_cast h1
  simp only [c3SinW]
  rw [if_neg hne]
  norm_num

/-- The square sum of the raw witness vector is 1. -/
lemma c3_sumSq_one : sumSqQ (part005RawMock c3SinW ['a']) = 1 := by
  rw [part005RawMock_c3SinW, sumSqQ_cons, sumSqQ_replicate_zero]
  norm_num

/-- Witness for C3 amended at concrete inputs: a provider vector `[2, 3]`
is returned unchanged, and the part_005 mock with `c3SinW` and exact sqrt
(the identity is exact on the square sum 1) returns a unit vector. -/
theorem generateEmbedding_normalization_amended_witness :
    generateEmbedding (some [2, 3]) (fun _ => 0) (fun _ => 0) ['q'] =
      [2, 3] ∧
    sumSqQ (part005MockGenerateEmbedding c3SinW (fun q => q) ['a']) = 1 :=
  ⟨generateEmbedding_normalization_amended.1 [2, 3] (fun _ => 0)
      (fun _ => 0) ['q'],
   (generateEmbedding_normalization_amended.2 c3SinW (fun q => q) ['a']
      (by rw [c3_sumSq_one]; norm_num)).2
      (by rw [c3_sumSq_one]; norm_num)⟩

/-- `(error as MCPError).code || 'UNKNOWN_ERROR'`
(src/src/mcp/utils/mcp-helpers.ts line 49): an empty (falsy) code is
classified as UNKNOWN_ERROR. -/
def errCode (c : String) : String :=
  if c = "" then "UNKNOWN_ERROR" else c

/-- The retry loop of `withRetry` (src/src/mcp/utils/mcp-helpers.ts
lines 42-72).  `op attempt` is the outcome of the attempt-th invocation
(1-based); `retryable` is the policy's retryable-error list; `maxA` is
`maxAttempts`; `rem` is the number of loop iterations left
(`maxAttempts + 1 - attempt`).  Returns (result, number of invocations of
the operation, number of delays performed). -/
def withRetryGo {α : Type} (op : Nat → Except String α)
    (retryable : List String) (maxA : Nat) :
    Nat → Nat → Except String α × Nat × Nat
  | _, 0 => (.error "Retry failed", 0, 0)
  | attempt, rem + 1 =>
    match op attempt with
    | .ok a => (.ok a, 1, 0)
    | .error c =>
      if errCode c ∈ retryable then
        if attempt = maxA then (.error c, 1, 0)
        else
          let r := withRetryGo op retryable maxA (attempt + 1) rem
          (r.1, r.2.1 + 1, r.2.2 + 1)
      else (.error c, 1, 0)

/-- `withRetry(fn, config)` (src/src/mcp/utils/mcp-helpers.ts
lines 35-76): run the loop from attempt 1 with `maxAttempts` iterations
available. -/
def withRetry {α : Type} (op : Nat → Except String α)
    (retryable : List String) (maxA : Nat) :
    Except String α × Nat × Nat :=
  withRetryGo op retryable maxA 1 maxA

/-- Generalized success lemma: from `attempt` with `rem` iterations left,
if the next `k` attempts fail retryably and attempt `attempt + k`
(within budget) succeeds with `v`, the loop returns `v` after `k + 1`
invocations and `k` delays. -/
lemma withRetryGo_ok {α : Type} (op : Nat → Except String α)
    (retryable : List String) (maxA : Nat) (v : α) (e : Nat → String) :
    ∀ (k attempt rem : Nat), k < rem → attempt + k ≤ maxA →
      (∀ i, attempt ≤ i → i < attempt + k →
        op i = .error (e i) ∧ errCode (e i) ∈ retryable) →
      op (attempt + k) = .ok v →
      withRetryGo op retryable maxA attempt rem = (.ok v, k + 1, k) := by
  intro k
  induction k with
  | zero =>
    intro attempt rem hrem _ _ hok
    obtain ⟨r, rfl⟩ : ∃ r, rem = r + 1 := ⟨rem - 1, by omega⟩
    rw [withRetryGo]
    rw [show op attempt = .ok v from by simpa using hok]
  | succ k ih =>
    intro attempt rem hrem hle herr hok
    obtain ⟨r, rfl⟩ : ∃ r, rem = r + 1 := ⟨rem - 1, by omega⟩
    have hfail := herr attempt (le_refl _) (by omega)
    rw [withRetryGo]
    simp only [hfail.1]
    rw [if_pos hfail.2, if_neg (show ¬attempt = maxA from by omega)]
    have hrec : withRetryGo op retryable maxA (attempt + 1) r =
        (.ok v, k + 1, k) := by
      refine ih (attempt + 1) r (by omega) (by omega) ?_ ?_
      · intro i h1 h2
        exact herr i (by omega) (by omega)
      · rw [show attempt + 1 + k = attempt + (k + 1) from by omega]
        exact hok
    rw [hrec]

/-- Generalized always-failing lemma: if every attempt fails with a
retryable code, the loop exhausts its remaining iterations, rethrowing the
last attempt's error after `rem` invocations and `rem - 1` delays. -/
lemma withRetryGo_all_fail {α : Type} (op : Nat → Except String α)
    (retryable : List String) (maxA : Nat) (e : Nat → String)
    (hop : ∀ i, op i = .error (e i))
    (hre : ∀ i, errCode (e i) ∈ retryable) :
    ∀ (rem attempt : Nat), 1 ≤ rem → attempt + rem = maxA + 1 →
      withRetryGo op retryable maxA attempt rem =
        (.error (e maxA), rem, rem - 1) := by
  intro rem
  induction rem with
  | zero => intro attempt h1; omega
  | succ r ih =>
    intro attempt _ hsum
    rw [withRetryGo]
    simp only [hop attempt]
    rw [if_pos (hre attempt)]
    by_cases hlast : attempt = maxA
    · have hr0 : r = 0 := by omega
      subst hr0
      rw [if_pos hlast, hlast]
    · rw [if_neg hlast]
      have hr1 : 1 ≤ r := by omega
      rw [ih (attempt + 1) hr1 (by omega)]
      have harith : r - 1 + 1 = r + 1 - 1 := by omega
      rw [harith]

/-- C4: CONFIRMED.  (1) An operation failing `k < maxAttempts` times with
retryable codes and then succeeding makes `withRetry` return the success
value with exactly `k + 1` invocations and `k` delays.  (2) An operation
always failing with retryable codes makes `withRetry` rethrow the last
error after exactly `maxAttempts` invocations and `maxAttempts - 1` delays
(no delay after the final attempt).  (3) A first failure whose code is not
retryable is rethrown after a single invocation with no delay. -/
theorem withRetry_retry_semantics :
    (∀ (α : Type) (op : Nat → Except String α) (retryable : List String)
      (maxA k : Nat) (v : α) (e : Nat → String),
      k < maxA →
      (∀ i, 1 ≤ i → i ≤ k →
        op i = .error (e i) ∧ errCode (e i) ∈ retryable) →
      op (k + 1) = .ok v →
      withRetry op retryable maxA = (.ok v, k + 1, k)) ∧
    (∀ (α : Type) (op : Nat → Except String α) (retryable : List String)
      (maxA : Nat) (e : Nat → String),
      1 ≤ maxA →
      (∀ i, op i = .error (e i)) →
      (∀ i, errCode (e i) ∈ retryable) →
      withRetry op retryable maxA =
        (.error (e maxA), maxA, maxA - 1)) ∧
    (∀ (α : Type) (op : Nat → Except String α) (retryable : List String)
      (maxA : Nat) (c : String),
      1 ≤ maxA →
      op 1 = .error c →
      errCode c ∉ retryable →
      withRetry op retryable maxA = (.error c, 1, 0)) := by
  refine ⟨?_, ?_, ?_⟩
  · intro α op retryable maxA k v e hk herr hok
    unfold withRetry
    refine withRetryGo_ok op retryable maxA v e k 1 maxA hk (by omega)
      ?_ ?_
    · intro i h1 h2
      exact herr i h1 (by omega)
    · rw [show 1 + k = k + 1 from by omega]
      exact hok
  · intro α op retryable maxA e hmax hop hre
    unfold withRetry
    rw [withRetryGo_all_fail op retryable maxA e hop hre maxA 1 hmax
      (by omega)]
  · intro α op retryable maxA c hmax hop hnr
    unfold withRetry
    obtain ⟨r, hr⟩ : ∃ r, maxA = r + 1 := ⟨maxA - 1, by omega⟩
    rw [hr, withRetryGo]
    simp only [hop]
    rw [if_neg hnr]

/-- Witness for C4 at concrete inputs: an operation failing twice with
RATE_LIMITED then succeeding with 42 under maxAttempts 3; an operation
always failing with TIMEOUT_ERROR under maxAttempts 3; an operation
failing with AUTHENTICATION_FAILED (not retryable) under maxAttempts 3. -/
theorem withRetry_retry_semantics_witness :
    withRetry (fun i => if i ≤ 2 then .error "RATE_LIMITED" else .ok 42)
      ["RATE_LIMITED", "TIMEOUT_ERROR"] 3 = (.ok 42, 3, 2) ∧
    withRetry (fun _ => (.error "TIMEOUT_ERROR" : Except String Nat))
      ["RATE_LIMITED", "TIMEOUT_ERROR"] 3 =
      (.error "TIMEOUT_ERROR", 3, 2) ∧
    withRetry (fun _ => (.error "AUTHENTICATION_FAILED" : Except String Nat))
      ["RATE_LIMITED", "TIMEOUT_ERROR"] 3 =
      (.error "AUTHENTICATION_FAILED", 1, 0) := by
  refine ⟨?_, ?_, ?_⟩
  · exact withRetry_retry_semantics.1 Nat
      (fun i => if i ≤ 2 then .error "RATE_LIMITED" else .ok 42)
      ["RATE_LIMITED", "TIMEOUT_ERROR"] 3 2 42 (fun _ => "RATE_LIMITED")
      (by omega)
      (by
        intro i h1 h2
        have h3 : i ≤ 2 := h2
        refine ⟨by simp [h3], ?_⟩
        show errCode "RATE_LIMITED" ∈ _
        decide)
      (by norm_num)
  · exact withRetry_retry_semantics.2.1 Nat
      (fun _ => .error "TIMEOUT_ERROR") ["RATE_LIMITED", "TIMEOUT_ERROR"]
      3 (fun _ => "TIMEOUT_ERROR") (by omega) (fun _ => rfl)
      (fun _ => by show errCode "TIMEOUT_ERROR" ∈ _; decide)
  · exact withRetry_retry_semantics.2.2 Nat
      (fun _ => .error "AUTHENTICATION_FAILED")
      ["RATE_LIMITED", "TIMEOUT_ERROR"] 3 "AUTHENTICATION_FAILED"
      (by omega) rfl (by decide)

/-- Circuit breaker status (src/src/mcp/types; the source's string states
'closed' / 'open' / 'half-open'; 'open' is spelled `opened` because `open`
is a Lean keyword). -/
inductive CBStatus where
  | closed
  | opened
  | halfOpen
  deriving DecidableEq

/-- Circuit breaker configuration
(src/src/mcp/utils/mcp-helpers.ts lines 23-27). -/
structure CBConfig where
  failureThreshold : Nat
  recoveryTimeout : Nat
  monitoringWindow : Nat
  deriving DecidableEq

/-- Circuit breaker state (src/src/mcp/utils/mcp-helpers.ts lines 87-92). -/
structure CBState where
  status : CBStatus
  failures : Nat
  lastFailure : Option Nat
  nextAttempt : Option Nat
  deriving DecidableEq

/-- Initial (and reset) state
(src/src/mcp/utils/mcp-helpers.ts lines 87-92 and 167-174). -/
def cbInitState : CBState := ⟨.closed, 0, none, none⟩

/-- `updateState()` (src/src/mcp/utils/mcp-helpers.ts lines 124-130):
an open breaker whose `nextAttempt` is set (JS-truthy, hence nonzero) and
has passed moves to half-open. -/
def cbUpdateState (now : Nat) (s : CBState) : CBState :=
  match s.status, s.nextAttempt with
  | .opened, some t =>
    if t ≠ 0 ∧ t ≤ now then { s with status := .halfOpen } else s
  | _, _ => s

/-- `onSuccess()` (src/src/mcp/utils/mcp-helpers.ts lines 135-139):
a success in half-open resets the breaker. -/
def cbOnSuccess (s : CBState) : CBState :=
  if s.status = .halfOpen then cbInitState else s

/-- `onFailure()` (src/src/mcp/utils/mcp-helpers.ts lines 144-162):
count the failure; in closed, open the circuit once the threshold is
reached, recording `nextAttempt = now + recoveryTimeout`; in half-open,
reopen with a fresh `nextAttempt`. -/
def cbOnFailure (cfg : CBConfig) (now : Nat) (s : CBState) : CBState :=
  let s1 := { s with failures := s.failures + 1, lastFailure := some now }
  match s1.status with
  | .closed =>
    if cfg.failureThreshold ≤ s1.failures then
      { s1 with status := .opened,
                nextAttempt := some (now + cfg.recoveryTimeout) }
    else s1
  | .halfOpen =>
    { s1 with status := .opened,
              nextAttempt := some (now + cfg.recoveryTimeout) }
  | .opened => s1

/-- Errors surfaced by `execute`. -/
inductive CBErr where
  | circuitOpen
  | execFailed
  deriving DecidableEq

/-- Result of one `execute` call: the outcome surfaced to the caller, the
new breaker state, and whether the wrapped function was invoked. -/
structure CBExecResult (α : Type) where
  result : Except CBErr α
  state : CBState
  invoked : Bool

/-- `execute(fn)` (src/src/mcp/utils/mcp-helpers.ts lines 100-119) at time
`now` with the wrapped function's outcome `outcome` (`some a` success,
`none` failure): update the state, reject with CIRCUIT_OPEN while open
without invoking `fn`, otherwise invoke `fn` and fold its outcome into the
state. -/
def cbExecute {α : Type} (cfg : CBConfig) (s : CBState) (now : Nat)
    (outcome : Option α) : CBExecResult α :=
  let s1 := cbUpdateState now s
  if s1.status = .opened then ⟨.error .circuitOpen, s1, false⟩
  else
    match outcome with
    | some a => ⟨.ok a, cbOnSuccess s1, true⟩
    | none => ⟨.error .execFailed, cbOnFailure cfg now s1, true⟩

/-- Fold a sequence of failing calls (at the given times) through the
breaker. -/
def cbApplyFailures (cfg : CBConfig) (times : List Nat) (s : CBState) :
    CBState :=
  times.foldl (fun st t => (cbExecute cfg st t (none : Option Unit)).state) s

/-- While the failure count stays below the threshold, failing calls leave
the breaker closed and just accumulate the count. -/
lemma cbApplyFailures_closed (cfg : CBConfig) :
    ∀ (ts : List Nat) (s : CBState), s.status = .closed →
      s.failures + ts.length < cfg.failureThreshold →
      (cbApplyFailures cfg ts s).status = .closed ∧
      (cbApplyFailures cfg ts s).failures = s.failures + ts.length := by
  intro ts
  induction ts with
  | nil => intro s hst _; exact ⟨hst, by simp [cbApplyFailures]⟩
  | cons t ts ih =>
    intro s hst hcount
    rcases s with ⟨st, f, lf, na⟩
    obtain rfl : st = CBStatus.closed := hst
    have hthr : ¬cfg.failureThreshold ≤ f + 1 := by
      simp at hcount; omega
    have hstep : (cbExecute cfg ⟨.closed, f, lf, na⟩ t
        (none : Option Unit)).state = ⟨.closed, f + 1, some t, na⟩ := by
      simp [cbExecute, cbUpdateState, cbOnFailure, hthr]
    have hunfold : cbApplyFailures cfg (t :: ts) ⟨.closed, f, lf, na⟩ =
        cbApplyFailures cfg ts ⟨.closed, f + 1, some t, na⟩ := by
      rw [cbApplyFailures, List.foldl_cons, hstep]
      rfl
    rw [hunfold]
    have hrec := ih ⟨.closed, f + 1, some t, na⟩ rfl
      (by simp at hcount ⊢; omega)
    refine ⟨hrec.1, ?_⟩
    rw [hrec.2]
    simp
    omega

/-- C5: CONFIRMED.  (1) From the initial closed state, `failureThreshold`
consecutive failures (threshold ≥ 1) drive the breaker to open, with
`nextAttempt` set to the last failure time plus `recoveryTimeout`.
(2) While open, a call before `nextAttempt` fails with CIRCUIT_OPEN, the
wrapped function is not invoked, and the state is unchanged.  (3) A call
at or after a (nonzero, as the source tests JS-truthiness) `nextAttempt`
moves the breaker to half-open before the call, and the wrapped function
is invoked. -/
theorem circuitBreaker_open_halfOpen_semantics :
    (∀ (cfg : CBConfig) (ts : List Nat) (t : Nat),
      1 ≤ cfg.failureThreshold →
      ts.length + 1 = cfg.failureThreshold →
      (cbApplyFailures cfg (ts ++ [t]) cbInitState).status = .opened ∧
      (cbApplyFailures cfg (ts ++ [t]) cbInitState).nextAttempt =
        some (t + cfg.recoveryTimeout)) ∧
    (∀ (α : Type) (cfg : CBConfig) (s : CBState) (t now : Nat)
      (outcome : Option α),
      s.status = .opened → s.nextAttempt = some t → now < t →
      cbExecute cfg s now outcome = ⟨.error .circuitOpen, s, false⟩) ∧
    (∀ (α : Type) (cfg : CBConfig) (s : CBState) (t now : Nat)
      (outcome : Option α),
      s.status = .opened → s.nextAttempt = some t → t ≠ 0 → t ≤ now →
      (cbUpdateState now s).status = .halfOpen ∧
      (cbExecute cfg s now outcome).invoked = true) := by
  refine ⟨?_, ?_, ?_⟩
  · intro cfg ts t h1 hlen
    have hpre := cbApplyFailures_closed cfg ts cbInitState rfl
      (by simp [cbInitState]; omega)
    rcases hview : cbApplyFailures cfg ts cbInitState with ⟨st, f, lf, na⟩
    rw [hview] at hpre
    obtain ⟨hst, hf⟩ := hpre
    obtain rfl : st = CBStatus.closed := hst
    have happ : cbApplyFailures cfg (ts ++ [t]) cbInitState =
        (cbExecute cfg ⟨.closed, f, lf, na⟩ t
          (none : Option Unit)).state := by
      rw [cbApplyFailures, List.foldl_append, ← hview]
      rfl
    have hthr : cfg.failureThreshold ≤ f + 1 := by
      simp [cbInitState] at hf
      omega
    have hstep : (cbExecute cfg ⟨.closed, f, lf, na⟩ t
        (none : Option Unit)).state =
        ⟨.opened, f + 1, some t, some (t + cfg.recoveryTimeout)⟩ := by
      simp [cbExecute, cbUpdateState, cbOnFailure, hthr]
    rw [happ, hstep]
    exact ⟨rfl, rfl⟩
  · intro α cfg s t now outcome hst hna hnow
    rcases s with ⟨st, f, lf, na⟩
    obtain rfl : st = CBStatus.opened := hst
    obtain rfl : na = some t := hna
    have hcond : ¬(t ≠ 0 ∧ t ≤ now) := by omega
    simp [cbExecute, cbUpdateState, hcond]
  · intro α cfg s t now outcome hst hna ht0 htle
    rcases s with ⟨st, f, lf, na⟩
    obtain rfl : st = CBStatus.opened := hst
    obtain rfl : na = some t := hna
    have hcond : t ≠ 0 ∧ t ≤ now := ⟨ht0, htle⟩
    constructor
    · simp [cbUpdateState, hcond]
    · cases outcome <;> simp [cbExecute, cbUpdateState, hcond]

/-- Witness for C5 at concrete inputs: default config (threshold 5,
recovery 30000), five failures at times 1..5 open the breaker with
`nextAttempt = 30005`; a call at time 100 < 30005 is rejected without
invocation; a call at time 30005 goes through half-open and is invoked. -/
theorem circuitBreaker_open_halfOpen_semantics_witness :
    ((cbApplyFailures ⟨5, 30000, 60000⟩ ([1, 2, 3, 4] ++ [5])
        cbInitState).status = .opened ∧
      (cbApplyFailures ⟨5, 30000, 60000⟩ ([1, 2, 3, 4] ++ [5])
        cbInitState).nextAttempt = some (5 + 30000)) ∧
    cbExecute (α := Nat) ⟨5, 30000, 60000⟩
      ⟨.opened, 5, some 5, some 30005⟩ 100 (some 7) =
      ⟨.error .circuitOpen, ⟨.opened, 5, some 5, some 30005⟩, false⟩ ∧
    ((cbUpdateState 30005 ⟨.opened, 5, some 5, some 30005⟩).status =
        .halfOpen ∧
      (cbExecute (α := Nat) ⟨5, 30000, 60000⟩
        ⟨.opened, 5, some 5, some 30005⟩ 30005 (some 7)).invoked = true) :=
  ⟨circuitBreaker_open_halfOpen_semantics.1 ⟨5, 30000, 60000⟩ [1, 2, 3, 4]
      5 (by decide) (by decide),
   circuitBreaker_open_halfOpen_semantics.2.1 Nat ⟨5, 30000, 60000⟩
      ⟨.opened, 5, some 5, some 30005⟩ 30005 100 (some 7) rfl rfl
      (by decide),
   circuitBreaker_open_halfOpen_semantics.2.2 Nat ⟨5, 30000, 60000⟩
      ⟨.opened, 5, some 5, some 30005⟩ 30005 30005 (some 7) rfl rfl
      (by decide) (by decide)⟩
